import Mathlib

/-!
Verification of the wave order-selection program (`main.py`).

The program models order/corridor selection as a CSP over boolean selectors
`o<i>` (orders) and `c<j>` (corridors), checks three global constraints on
complete assignments, enumerates every feasible assignment by exhaustive
backtracking, and ranks the feasible assignments by the objective
total-units / corridor-count.

Python dictionaries are embedded as association lists in insertion order;
Python integers as `Nat` (all quantities in the data model are non-negative);
Python float true-division, where it appears in the objective, is modelled as
exact division in `ℚ`.
-/

set_option maxHeartbeats 1600000
set_option maxRecDepth 100000

namespace SelecaoPedidos

/-- A decision variable of the CSP: the Python program uses the strings
`f"o{i}"` for order `i` and `f"c{j}"` for corridor `j`. -/
inductive Var : Type
  | o (i : Nat)
  | c (j : Nat)
deriving DecidableEq, Repr

/-- Value type of `pedidos[o]` / `corredores[c]`: mapping from item id to quantity. -/
abbrev ItemMap := List (Nat × Nat)

/-- Shape of the `pedidos` / `corredores` dictionaries: id → item map, in insertion order. -/
abbrev ProbDict := List (Nat × ItemMap)

/-- A (possibly partial) assignment dictionary: variable → value, in insertion order. -/
abbrev Assignment := List (Var × Nat)

/-- Python `d[k]` / `k in d` on an association list: the first binding of `k`, if any. -/
def lookupKey {α β : Type} [DecidableEq α] : List (α × β) → α → Option β
  | [], _ => none
  | (u, x) :: rest, k => if u = k then some x else lookupKey rest k

/-- Python `assignment.get(var, 0)`. -/
def dget (assignment : Assignment) (var : Var) : Nat :=
  (lookupKey assignment var).getD 0

/-- Python `itemmap.get(item, 0)`. -/
def iget (m : ItemMap) (item : Nat) : Nat :=
  (lookupKey m item).getD 0

/-- Python `sum(pedidos[o].values())`. -/
def sumVals (m : ItemMap) : Nat := (m.map Prod.snd).sum

-- ---------------------------------------------------------------------
-- The problem data of `main.py` (lines 29-47).

def pedidosData : ProbDict :=
  [(0, [(0, 3), (2, 1)]),
   (1, [(1, 1), (3, 1)]),
   (2, [(2, 1), (4, 2)]),
   (3, [(0, 1), (2, 2), (3, 1), (4, 1)]),
   (4, [(1, 1)])]

def corredoresData : ProbDict :=
  [(0, [(0, 2), (1, 1), (2, 1), (4, 1)]),
   (1, [(0, 2), (1, 1), (2, 2), (4, 1)]),
   (2, [(1, 2), (3, 1), (4, 2)]),
   (3, [(0, 2), (1, 1), (3, 1), (4, 1)]),
   (4, [(1, 1), (2, 2), (3, 1), (4, 2)])]

-- ---------------------------------------------------------------------
-- Variable space (source: criar_variaveis_e_dominios, criar_neighbors).

/-- Source `criar_variaveis_e_dominios`: one variable `o<i>` per order, in dict order,
followed by one variable `c<j>` per corridor. -/
def criar_variaveis (pedidos corredores : ProbDict) : List Var :=
  pedidos.map (fun p => Var.o p.1) ++ corredores.map (fun p => Var.c p.1)

/-- Source `criar_variaveis_e_dominios` gives every variable the same domain `[0, 1]`. -/
def dominios : List Nat := [0, 1]

/-- Source `criar_neighbors`: every variable is a neighbor of every other variable. -/
def criar_neighbors (variaveis : List Var) (var : Var) : List Var :=
  variaveis.filter (fun v => v ≠ var)

-- ---------------------------------------------------------------------
-- Feasibility oracle (source lines 90-165).

/-- Source `verifica_tamanho_wave`: the total number of units of the selected orders,
and whether it lies in `[LB, UB]`. -/
def verifica_tamanho_wave (assignment : Assignment) (pedidos : ProbDict)
    (LB UB : Nat) : Bool × Nat :=
  let total_unidades :=
    (pedidos.map (fun p => if dget assignment (Var.o p.1) = 1 then sumVals p.2 else 0)).sum
  (decide (LB ≤ total_unidades ∧ total_unidades ≤ UB), total_unidades)

/-- The distinct items collected from the orders (`itens` in `verifica_capacidade`);
a Python `set`, whose iteration order does not affect the result of the check. -/
def itensOf (pedidos : ProbDict) : List Nat :=
  ((pedidos.map (fun p => p.2.map Prod.fst)).flatten).dedup

/-- The demand for `item`: `sum(pedidos[o].get(item, 0) for o in pedidos if
assignment.get(f"o{o}", 0) == 1)`. -/
def demanda (assignment : Assignment) (pedidos : ProbDict) (item : Nat) : Nat :=
  (pedidos.map (fun p => if dget assignment (Var.o p.1) = 1 then iget p.2 item else 0)).sum

/-- The supply for `item`: `sum(corredores[c].get(item, 0) for c in corredores if
assignment.get(f"c{c}", 0) == 1)`. -/
def oferta (assignment : Assignment) (corredores : ProbDict) (item : Nat) : Nat :=
  (corredores.map (fun p => if dget assignment (Var.c p.1) = 1 then iget p.2 item else 0)).sum

/-- Source `verifica_capacidade`: for every item of the orders, demand ≤ supply.
The Python loop returns `False` at the first violating item; the result is the
same as checking all of them. -/
def verifica_capacidade (assignment : Assignment) (pedidos corredores : ProbDict) : Bool :=
  (itensOf pedidos).all
    (fun item => decide (demanda assignment pedidos item ≤ oferta assignment corredores item))

/-- Source `verifica_corridor_selecionado`: the number of selected corridors
(`sum(assignment.get(f"c{c}", 0) for c in corredores)`) and whether it is positive. -/
def verifica_corridor_selecionado (assignment : Assignment) (corredores : ProbDict) :
    Bool × Nat :=
  let num_corr := (corredores.map (fun p => dget assignment (Var.c p.1))).sum
  (decide (0 < num_corr), num_corr)

/-- Source `check_global_constraints`: the three checks in sequence, lines 140-158. -/
def check_global_constraints (assignment : Assignment) (pedidos corredores : ProbDict)
    (LB UB : Nat) : Bool × Nat × Nat :=
  let r := verifica_tamanho_wave assignment pedidos LB UB
  if !r.1 then (false, r.2, 0)
  else if !verifica_capacidade assignment pedidos corredores then (false, r.2, 0)
  else
    let s := verifica_corridor_selecionado assignment corredores
    if !s.1 then (false, r.2, s.2) else (true, r.2, s.2)

/-- Source `calcular_valor_objetivo`: `total_unidades / num_corr if num_corr > 0 else 0`.
The Python true division of integers (a float in the source) is modelled as exact
division in `ℚ`. -/
def calcular_valor_objetivo (total_unidades num_corr : Nat) : ℚ :=
  if 0 < num_corr then (total_unidades : ℚ) / (num_corr : ℚ) else 0

/-- Source `dummy_constraint(A, a, B, b)`: always `True` (lines 171-172). -/
def dummy_constraint (A : Var) (a : Nat) (B : Var) (b : Nat) : Bool := true

-- ---------------------------------------------------------------------
-- CSP base-class primitives used by `all_solutions`.

/-- Modelled from the spec: the generic CSP base class (external `aiaa` library)
counts, among the neighbors of `var` that are present in the assignment, those
whose binding conflicts with `var = val` under the binary constraint.  With
`dummy_constraint` no pair ever conflicts, so the count is always `0`. -/
def nconflicts (constraint : Var → Nat → Var → Nat → Bool) (neighbors : List Var)
    (var : Var) (val : Nat) (assignment : Assignment) : Nat :=
  (neighbors.filter (fun v =>
    (lookupKey assignment v).isSome && !(constraint var val v (dget assignment v)))).length

/-- Modelled from the spec: `csp.assign(var, val, assignment)` performs
`assignment[var] = val` — overwrite if present, append a new binding otherwise. -/
def assign (var : Var) (val : Nat) (assignment : Assignment) : Assignment :=
  if (lookupKey assignment var).isSome then
    assignment.map (fun p => if p.1 = var then (var, val) else p)
  else assignment ++ [(var, val)]

/-- Modelled from the spec: `csp.unassign(var, assignment)` deletes the binding
of `var` when present. -/
def unassign (var : Var) (assignment : Assignment) : Assignment :=
  assignment.filter (fun p => p.1 ≠ var)

/-- Source `PedidosCSP.goal_test(state)`: `False` unless the assignment is complete
(its size equals the variable count); otherwise the first component of
`check_global_constraints`. -/
def goal_test (variaveis : List Var) (pedidos corredores : ProbDict) (LB UB : Nat)
    (state : Assignment) : Bool :=
  if state.length ≠ variaveis.length then false
  else (check_global_constraints state pedidos corredores LB UB).1

-- ---------------------------------------------------------------------
-- The exhaustive backtracking enumerator (source lines 206-228).

/-- The recursion of `all_solutions`, with an explicit fuel bounding the
recursion depth (the Python recursion adds one binding per level, so any
fuel ≥ number-of-unassigned-variables + 1 yields the same result).
Returns the list of yielded solutions together with the final state of the
mutable assignment dictionary.  `csp.choices(var)` is the domain `[0, 1]`
(`dominios`); `first([v for v in csp.variables if v not in assignment])` is
`List.find?`; the `for value in ...` loop is the fold over `dominios`. -/
def all_solutions_rec (variaveis : List Var) (pedidos corredores : ProbDict)
    (LB UB : Nat) : Nat → Assignment → List Assignment × Assignment
  | 0, assignment => ([], assignment)
  | fuel + 1, assignment =>
    if assignment.length = variaveis.length then
      (if goal_test variaveis pedidos corredores LB UB assignment then [assignment] else [],
       assignment)
    else
      match variaveis.find? (fun v => (lookupKey assignment v).isNone) with
      | none => ([], assignment)
      | some var =>
        dominios.foldl
          (fun acc value =>
            if nconflicts dummy_constraint (criar_neighbors variaveis var) var value acc.2 = 0
            then
              let r := all_solutions_rec variaveis pedidos corredores LB UB fuel
                (assign var value acc.2)
              (acc.1 ++ r.1, unassign var r.2)
            else acc)
          ([], assignment)

/-- Source `all_solutions(csp, assignment)`: the full enumeration.  The fuel
the length of the variable list plus one always suffices, since each recursive call binds one more
previously-unbound variable. -/
def all_solutions (pedidos corredores : ProbDict) (LB UB : Nat)
    (assignment : Assignment) : List Assignment × Assignment :=
  let variaveis := criar_variaveis pedidos corredores
  all_solutions_rec variaveis pedidos corredores LB UB (variaveis.length + 1) assignment

-- ---------------------------------------------------------------------
-- Result ranking (source lines 244-261).

/-- Entry of `resultados`: `(sol, total_unidades, num_corr, obj)` (lines 253-258). -/
def resultado_of (pedidos corredores : ProbDict) (LB UB : Nat) (sol : Assignment) :
    Assignment × Nat × Nat × ℚ :=
  let total_unidades := (verifica_tamanho_wave sol pedidos LB UB).2
  let num_corr := (verifica_corridor_selecionado sol corredores).2
  (sol, total_unidades, num_corr, calcular_valor_objetivo total_unidades num_corr)

/-- Python `max(l, key=key)` on a list: a linear scan that replaces the current
best only on a strictly greater key, so the first maximum encountered wins;
`none` on the empty list (where Python would raise). -/
def max_by_key {α : Type} (key : α → ℚ) : List α → Option α
  | [] => none
  | x :: xs => some (xs.foldl (fun best y => if key best < key y then y else best) x)

/-- The result-producing part of `main` (lines 244-261): `None` when the
enumerator yields no solution (`"Nenhuma solução viável encontrada!"` and
return, without building any result tuple); otherwise the `resultados` list
and the best tuple chosen by `max(resultados, key=lambda x: x[3])`. -/
def main_result (pedidos corredores : ProbDict) (LB UB : Nat) :
    Option (List (Assignment × Nat × Nat × ℚ) × (Assignment × Nat × Nat × ℚ)) :=
  match (all_solutions pedidos corredores LB UB []).1 with
  | [] => none
  | sol :: sols =>
    let resultados := (sol :: sols).map (resultado_of pedidos corredores LB UB)
    (max_by_key (fun r => r.2.2.2) resultados).map (fun best => (resultados, best))

-- ---------------------------------------------------------------------
-- Spec-side definitions.

/-- Spec-side (refinement target of the completeness claim): the naive
enumeration of all `2^n` complete `{0,1}`-assignments over the given
variables, values `0` before `1`, outermost variable varying slowest —
the order in which the backtracking search visits the leaves. -/
def naive_enum : List Var → List Assignment
  | [] => [[]]
  | v :: rest =>
    (naive_enum rest).map (fun a => (v, 0) :: a) ++
    (naive_enum rest).map (fun a => (v, 1) :: a)

/-- Spec-side: the completion of a partial assignment — every variable read
through the Python `dict.get(var, 0)` default, so absent variables become `0`. -/
def completar (variaveis : List Var) (assignment : Assignment) : Assignment :=
  variaveis.map (fun v => (v, dget assignment v))

/-- Spec-side: the maximum achievable total of units — every order selected. -/
def total_maximo (pedidos : ProbDict) : Nat :=
  (pedidos.map (fun p => sumVals p.2)).sum

-- ---------------------------------------------------------------------
-- Basic lemmas about the dictionary model.

theorem lookupKey_eq_none {α β : Type} [DecidableEq α] {l : List (α × β)} {k : α} :
    lookupKey l k = none ↔ k ∉ l.map Prod.fst := by
  induction l with
  | nil => simp [lookupKey]
  | cons p rest ih =>
    by_cases h : p.1 = k
    · simp [lookupKey, h]
    · simp only [lookupKey, h, if_neg, List.map_cons, List.mem_cons, ih]
      constructor
      · intro hr hk
        rcases hk with hk | hk
        · exact h hk.symm
        · exact (ih.mp hr) hk
      · intro hk
        exact ih.mpr (fun hm => hk (Or.inr hm))

theorem lookupKey_isSome {α β : Type} [DecidableEq α] {l : List (α × β)} {k : α} :
    (lookupKey l k).isSome = true ↔ k ∈ l.map Prod.fst := by
  rcases h : lookupKey l k with _ | x
  · simp [lookupKey_eq_none.mp h]
  · have : ¬ lookupKey l k = none := by simp [h]
    simp only [Option.isSome_some, true_iff]
    by_contra hk
    exact this (lookupKey_eq_none.mpr hk)

theorem lookupKey_map_self {α β : Type} [DecidableEq α] (f : α → β) (l : List α) {k : α}
    (hk : k ∈ l) : lookupKey (l.map (fun v => (v, f v))) k = some (f k) := by
  induction l with
  | nil => cases hk
  | cons u rest ih =>
    by_cases h : u = k
    · subst h; simp [lookupKey]
    · rcases List.mem_cons.mp hk with hk1 | hk1
      · exact absurd hk1.symm h
      · simpa [lookupKey, h] using ih hk1

/-- With `dummy_constraint` the conflict count is always zero: the dummy binary
constraint never prunes anything. -/
theorem nconflicts_dummy (neighbors : List Var) (var : Var) (val : Nat)
    (assignment : Assignment) :
    nconflicts dummy_constraint neighbors var val assignment = 0 := by
  simp [nconflicts, dummy_constraint]

theorem assign_of_not_mem {assignment : Assignment} {var : Var} (val : Nat)
    (h : lookupKey assignment var = none) :
    assign var val assignment = assignment ++ [(var, val)] := by
  simp [assign, h]

theorem unassign_assign {assignment : Assignment} {var : Var} (val : Nat)
    (h : lookupKey assignment var = none) :
    unassign var (assignment ++ [(var, val)]) = assignment := by
  have hmem : var ∉ assignment.map Prod.fst := lookupKey_eq_none.mp h
  rw [unassign, List.filter_append]
  have h1 : assignment.filter (fun p => p.1 ≠ var) = assignment := by
    apply List.filter_eq_self.mpr
    intro p hp
    simp only [ne_eq, decide_eq_true_eq]
    intro hpv
    exact hmem (List.mem_map.mpr ⟨p, hp, hpv⟩)
  have h2 : List.filter (fun p => p.1 ≠ var) [(var, val)] = [] := by
    simp [List.filter]
  rw [h1, h2, List.append_nil]

theorem find?_append_first {p : Var → Bool} {pre : List Var} {v : Var} (rest : List Var)
    (hpre : ∀ u ∈ pre, p u = false) (hv : p v = true) :
    (pre ++ v :: rest).find? p = some v := by
  induction pre with
  | nil => simp [List.find?_cons_of_pos, hv]
  | cons u us ih =>
    have hu : p u = false := hpre u (List.mem_cons_self u us)
    rw [List.cons_append, List.find?_cons_of_neg _ (by simp [hu])]
    exact ih (fun w hw => hpre w (List.mem_cons_of_mem u hw))

-- ---------------------------------------------------------------------
-- The frame property of the search: the mutable assignment dictionary is
-- restored after the recursion (each assign is undone by an unassign).

theorem all_solutions_rec_state (variaveis : List Var) (pedidos corredores : ProbDict)
    (LB UB : Nat) : ∀ (fuel : Nat) (assignment : Assignment),
    (all_solutions_rec variaveis pedidos corredores LB UB fuel assignment).2 = assignment := by
  intro fuel
  induction fuel with
  | zero => intro a; rfl
  | succ f ih =>
    intro a
    rw [all_solutions_rec]
    split
    · rfl
    · rcases hf : variaveis.find? (fun v => (lookupKey a v).isNone) with _ | var
      · rfl
      · have hvar := List.find?_some hf
        have hnone : lookupKey a var = none := by
          simpa [Option.isNone_iff_eq_none] using hvar
        simp only [dominios, List.foldl, nconflicts_dummy, eq_self_iff_true, if_true,
          List.nil_append]
        rw [ih (assign var 0 a), assign_of_not_mem 0 hnone, unassign_assign 0 hnone,
          ih (assign var 1 a), assign_of_not_mem 1 hnone, unassign_assign 1 hnone]

/-- Unfolding of one search level at a not-yet-complete assignment: value `0`
is explored first, then value `1`, and the dictionary is handed back intact. -/
theorem all_solutions_rec_succ_some (variaveis : List Var) (pedidos corredores : ProbDict)
    (LB UB : Nat) (fuel : Nat) {a : Assignment} {var : Var}
    (hlen : ¬ a.length = variaveis.length)
    (hf : variaveis.find? (fun v => (lookupKey a v).isNone) = some var) :
    all_solutions_rec variaveis pedidos corredores LB UB (fuel + 1) a =
      ((all_solutions_rec variaveis pedidos corredores LB UB fuel (a ++ [(var, 0)])).1 ++
       (all_solutions_rec variaveis pedidos corredores LB UB fuel (a ++ [(var, 1)])).1, a) := by
  have hvar := List.find?_some hf
  have hnone : lookupKey a var = none := by
    simpa [Option.isNone_iff_eq_none] using hvar
  rw [all_solutions_rec, if_neg hlen, hf]
  simp only [dominios, List.foldl, nconflicts_dummy, eq_self_iff_true, if_true,
    List.nil_append]
  rw [all_solutions_rec_state, assign_of_not_mem 0 hnone, unassign_assign 0 hnone,
    assign_of_not_mem 1 hnone, all_solutions_rec_state, unassign_assign 1 hnone]

/-- Every assignment yielded by the search passes `goal_test`. -/
theorem all_solutions_rec_sound (variaveis : List Var) (pedidos corredores : ProbDict)
    (LB UB : Nat) : ∀ (fuel : Nat) (assignment s : Assignment),
    s ∈ (all_solutions_rec variaveis pedidos corredores LB UB fuel assignment).1 →
    goal_test variaveis pedidos corredores LB UB s = true := by
  intro fuel
  induction fuel with
  | zero => intro a s hs; simp [all_solutions_rec] at hs
  | succ f ih =>
    intro a s hs
    by_cases hlen : a.length = variaveis.length
    · rw [all_solutions_rec, if_pos hlen] at hs
      rcases hgt : goal_test variaveis pedidos corredores LB UB a with _ | _
      · rw [hgt] at hs; simp at hs
      · rw [hgt] at hs
        simp at hs
        subst hs; exact hgt
    · rcases hf : variaveis.find? (fun v => (lookupKey a v).isNone) with _ | var
      · rw [all_solutions_rec, if_neg hlen, hf] at hs; simp at hs
      · rw [all_solutions_rec_succ_some variaveis pedidos corredores LB UB f hlen hf] at hs
        simp only [List.mem_append] at hs
        rcases hs with hs | hs
        · exact ih _ s hs
        · exact ih _ s hs

/-- Each naively enumerated assignment binds exactly the given variables, in order. -/
theorem naive_enum_keys : ∀ {vs : List Var} {e : Assignment}, e ∈ naive_enum vs →
    e.map Prod.fst = vs := by
  intro vs
  induction vs with
  | nil =>
    intro e he
    simp only [naive_enum, List.mem_singleton] at he
    simp [he]
  | cons v rest ih =>
    intro e he
    simp only [naive_enum, List.mem_append, List.mem_map] at he
    rcases he with ⟨a, ha, rfl⟩ | ⟨a, ha, rfl⟩ <;> simp [ih ha]

/-- The central invariant of the backtracking search: from a state whose keys
are exactly the already-processed prefix of the variable list, the search
yields precisely the goal-passing extensions of the state by all `{0,1}`
valuations of the remaining variables, in lexicographic order. -/
theorem all_solutions_rec_spec (variaveis : List Var) (pedidos corredores : ProbDict)
    (LB UB : Nat) (hnd : variaveis.Nodup) :
    ∀ (rest : List Var) (fuel : Nat) (pre : List Var) (a : Assignment),
      variaveis = pre ++ rest → a.map Prod.fst = pre → rest.length < fuel →
      (all_solutions_rec variaveis pedidos corredores LB UB fuel a).1 =
        ((naive_enum rest).map (fun e => a ++ e)).filter
          (goal_test variaveis pedidos corredores LB UB) := by
  intro rest
  induction rest with
  | nil =>
    intro fuel pre a hsplit hkeys hfuel
    rcases fuel with _ | f
    · exact absurd hfuel (by simp)
    · have hlen : a.length = variaveis.length := by
        have h1 : a.length = pre.length := by
          have h2 := congrArg List.length hkeys
          simpa using h2
        rw [hsplit, List.append_nil, h1]
      rw [all_solutions_rec, if_pos hlen]
      simp [naive_enum, List.filter_singleton]
  | cons v rest2 ih =>
    intro fuel pre a hsplit hkeys hfuel
    rcases fuel with _ | f
    · exact absurd hfuel (by simp)
    · have halen : a.length = pre.length := by
        have h2 := congrArg List.length hkeys
        simpa using h2
      have hlen : ¬ a.length = variaveis.length := by
        rw [hsplit, halen]
        simp only [List.length_append, List.length_cons]
        omega
      have hvnot : v ∉ pre := by
        rw [hsplit] at hnd
        have hd := (List.nodup_append.mp hnd).2.2
        intro hv
        exact hd hv (List.mem_cons_self v rest2)
      have hprelookup : ∀ u ∈ pre, ((lookupKey a u).isNone) = false := by
        intro u hu
        have hmem : u ∈ a.map Prod.fst := by rw [hkeys]; exact hu
        have hs := lookupKey_isSome.mpr hmem
        rcases h : lookupKey a u with _ | x
        · rw [h] at hs; simp at hs
        · simp
      have hvlookup : ((lookupKey a v).isNone) = true := by
        rw [Option.isNone_iff_eq_none, lookupKey_eq_none, hkeys]
        exact hvnot
      have hf : variaveis.find? (fun u => (lookupKey a u).isNone) = some v := by
        rw [hsplit]
        exact find?_append_first rest2 hprelookup hvlookup
      rw [all_solutions_rec_succ_some variaveis pedidos corredores LB UB f hlen hf]
      have hsplit2 : variaveis = (pre ++ [v]) ++ rest2 := by
        rw [hsplit, List.append_assoc, List.singleton_append]
      have hfuel2 : rest2.length < f := by
        simp only [List.length_cons] at hfuel
        omega
      have h0 := ih f (pre ++ [v]) (a ++ [(v, 0)]) hsplit2 (by simp [hkeys]) hfuel2
      have h1 := ih f (pre ++ [v]) (a ++ [(v, 1)]) hsplit2 (by simp [hkeys]) hfuel2
      have hmap0 : List.map ((fun e => a ++ e) ∘ fun e : Assignment => (v, 0) :: e)
          (naive_enum rest2) =
          List.map (fun e : Assignment => (a ++ [(v, 0)]) ++ e) (naive_enum rest2) := by
        have hc : ((fun e => a ++ e) ∘ fun e : Assignment => (v, 0) :: e) =
            fun e : Assignment => (a ++ [(v, 0)]) ++ e := by
          funext e; simp
        rw [hc]
      have hmap1 : List.map ((fun e => a ++ e) ∘ fun e : Assignment => (v, 1) :: e)
          (naive_enum rest2) =
          List.map (fun e : Assignment => (a ++ [(v, 1)]) ++ e) (naive_enum rest2) := by
        have hc : ((fun e => a ++ e) ∘ fun e : Assignment => (v, 1) :: e) =
            fun e : Assignment => (a ++ [(v, 1)]) ++ e := by
          funext e; simp
        rw [hc]
      simp only [naive_enum, List.map_append, List.filter_append, List.map_map,
        hmap0, hmap1, h0, h1]

/-- Behavior of `all_solutions` started from the empty dictionary, as `main` calls it:
the yields are exactly the goal-passing complete assignments, in the naive
enumeration order. -/
theorem all_solutions_empty_spec (pedidos corredores : ProbDict) (LB UB : Nat)
    (hnd : (criar_variaveis pedidos corredores).Nodup) :
    (all_solutions pedidos corredores LB UB []).1 =
      (naive_enum (criar_variaveis pedidos corredores)).filter
        (goal_test (criar_variaveis pedidos corredores) pedidos corredores LB UB) := by
  have h := all_solutions_rec_spec (criar_variaveis pedidos corredores) pedidos corredores LB UB
    hnd (criar_variaveis pedidos corredores)
    ((criar_variaveis pedidos corredores).length + 1) [] []
    (by simp) (by simp) (by simp)
  simp only [all_solutions, h, List.nil_append]
  rw [List.map_id']

/-- The combinator in closed form: the flag is the conjunction of the three
checks, the total is always the total of the band check, and the corridor count is
reported only once band and capacity have passed (`0` otherwise). -/
theorem check_global_constraints_eq (a : Assignment) (p c : ProbDict) (LB UB : Nat) :
    check_global_constraints a p c LB UB =
      ((verifica_tamanho_wave a p LB UB).1 &&
        (verifica_capacidade a p c && (verifica_corridor_selecionado a c).1),
       (verifica_tamanho_wave a p LB UB).2,
       if (verifica_tamanho_wave a p LB UB).1 && verifica_capacidade a p c then
         (verifica_corridor_selecionado a c).2
       else 0) := by
  cases h1 : (verifica_tamanho_wave a p LB UB).1 <;>
    cases h2 : verifica_capacidade a p c <;>
      cases h3 : (verifica_corridor_selecionado a c).1 <;>
        simp [check_global_constraints, h1, h2, h3]

/-- On a complete assignment `goal_test` is exactly the flag of the combinator. -/
theorem goal_test_complete (variaveis : List Var) (p c : ProbDict) (LB UB : Nat)
    {s : Assignment} (h : s.length = variaveis.length) :
    goal_test variaveis p c LB UB s = (check_global_constraints s p c LB UB).1 := by
  simp [goal_test, h]

theorem tamanho_fst (a : Assignment) (p : ProbDict) (LB UB : Nat) :
    (verifica_tamanho_wave a p LB UB).1 =
      decide (LB ≤ (verifica_tamanho_wave a p LB UB).2 ∧
        (verifica_tamanho_wave a p LB UB).2 ≤ UB) := rfl

theorem corr_fst (a : Assignment) (c : ProbDict) :
    (verifica_corridor_selecionado a c).1 =
      decide (0 < (verifica_corridor_selecionado a c).2) := rfl

/-- C1: Soundness of the enumerator: every assignment yielded by
`all_solutions` is complete (it binds exactly the variables of the problem), and
re-applying `check_global_constraints` to it returns `True` together with a
total in `[LB, UB]` and a corridor count `> 0`. -/
theorem C1_enumerator_sound (pedidos corredores : ProbDict) (LB UB : Nat)
    (hnd : (criar_variaveis pedidos corredores).Nodup) (s : Assignment)
    (hs : s ∈ (all_solutions pedidos corredores LB UB []).1) :
    s.map Prod.fst = criar_variaveis pedidos corredores ∧
    (check_global_constraints s pedidos corredores LB UB).1 = true ∧
    LB ≤ (check_global_constraints s pedidos corredores LB UB).2.1 ∧
    (check_global_constraints s pedidos corredores LB UB).2.1 ≤ UB ∧
    0 < (check_global_constraints s pedidos corredores LB UB).2.2 := by
  rw [all_solutions_empty_spec pedidos corredores LB UB hnd] at hs
  have hmem := List.mem_of_mem_filter hs
  have hkeys := naive_enum_keys hmem
  have hgoal := List.of_mem_filter hs
  have hlen : s.length = (criar_variaveis pedidos corredores).length := by
    have h2 := congrArg List.length hkeys
    simpa using h2
  rw [goal_test_complete _ _ _ _ _ hlen] at hgoal
  have hcheck := hgoal
  rw [check_global_constraints_eq] at hgoal
  simp only [Bool.and_eq_true] at hgoal
  obtain ⟨hband, hcap, hcorr⟩ := hgoal
  have hb : LB ≤ (verifica_tamanho_wave s pedidos LB UB).2 ∧
      (verifica_tamanho_wave s pedidos LB UB).2 ≤ UB := by
    rw [tamanho_fst] at hband
    exact of_decide_eq_true hband
  have hc : 0 < (verifica_corridor_selecionado s corredores).2 := by
    rw [corr_fst] at hcorr
    exact of_decide_eq_true hcorr
  have hband2 : (verifica_tamanho_wave s pedidos LB UB).1 = true := by
    rw [tamanho_fst]
    exact decide_eq_true hb
  refine ⟨hkeys, hcheck, ?_, ?_, ?_⟩ <;> rw [check_global_constraints_eq]
  · exact hb.1
  · exact hb.2
  · simpa [hband2, hcap] using hc

/-- C2: Completeness of the enumerator: the assignments yielded by
`all_solutions` are exactly the naive enumeration of all `2^(n+m)` complete
`{0,1}`-assignments filtered by the three feasibility predicates, and the
dummy binary constraint never prunes any branch (its conflict count is
always zero). -/
theorem C2_enumerator_complete (pedidos corredores : ProbDict) (LB UB : Nat)
    (hnd : (criar_variaveis pedidos corredores).Nodup) :
    (all_solutions pedidos corredores LB UB []).1 =
      (naive_enum (criar_variaveis pedidos corredores)).filter (fun s =>
        (verifica_tamanho_wave s pedidos LB UB).1 &&
        (verifica_capacidade s pedidos corredores &&
         (verifica_corridor_selecionado s corredores).1)) ∧
    ∀ (neighbors : List Var) (var : Var) (value : Nat) (a : Assignment),
      nconflicts dummy_constraint neighbors var value a = 0 := by
  refine ⟨?_, nconflicts_dummy⟩
  rw [all_solutions_empty_spec pedidos corredores LB UB hnd]
  apply List.filter_congr
  intro s hmem
  have hkeys := naive_enum_keys hmem
  have hlen : s.length = (criar_variaveis pedidos corredores).length := by
    have h2 := congrArg List.length hkeys
    simpa using h2
  rw [goal_test_complete _ _ _ _ _ hlen, check_global_constraints_eq]

/-- C10: Search-state restoration: after the search is run to exhaustion,
the assignment dictionary passed in is equal to its initial contents — every
`assign` was undone by the matching `unassign` on backtrack. -/
theorem C10_state_restored (pedidos corredores : ProbDict) (LB UB : Nat)
    (assignment : Assignment) :
    (all_solutions pedidos corredores LB UB assignment).2 = assignment := by
  simp only [all_solutions]
  exact all_solutions_rec_state _ _ _ _ _ _ _

/-- C4: Combinator failure shape: a failing band check returns
`(False, total, 0)`; a passing band check with a failing capacity check
returns `(False, total, 0)`; otherwise the boolean of the activity check is
returned together with the real total and the real corridor count. -/
theorem C4_check_failure_shape (a : Assignment) (pedidos corredores : ProbDict)
    (LB UB : Nat) :
    ((verifica_tamanho_wave a pedidos LB UB).1 = false →
      check_global_constraints a pedidos corredores LB UB =
        (false, (verifica_tamanho_wave a pedidos LB UB).2, 0)) ∧
    ((verifica_tamanho_wave a pedidos LB UB).1 = true →
      verifica_capacidade a pedidos corredores = false →
      check_global_constraints a pedidos corredores LB UB =
        (false, (verifica_tamanho_wave a pedidos LB UB).2, 0)) ∧
    ((verifica_tamanho_wave a pedidos LB UB).1 = true →
      verifica_capacidade a pedidos corredores = true →
      check_global_constraints a pedidos corredores LB UB =
        ((verifica_corridor_selecionado a corredores).1,
         (verifica_tamanho_wave a pedidos LB UB).2,
         (verifica_corridor_selecionado a corredores).2)) := by
  refine ⟨?_, ?_, ?_⟩
  · intro h1
    simp [check_global_constraints, h1]
  · intro h1 h2
    simp [check_global_constraints, h1, h2]
  · intro h1 h2
    cases h3 : (verifica_corridor_selecionado a corredores).1 <;>
      simp [check_global_constraints, h1, h2, h3]

/-- C3: Capacity-check semantics: `verifica_capacidade` returns `True`
iff for every item appearing in some order, the summed demand of the
selected orders is at most the summed supply of the selected corridors;
items appearing only in corridors are never examined. -/
theorem C3_capacidade_iff (a : Assignment) (pedidos corredores : ProbDict) :
    verifica_capacidade a pedidos corredores = true ↔
      ∀ item : Nat, (∃ p ∈ pedidos, (lookupKey p.2 item).isSome) →
        demanda a pedidos item ≤ oferta a corredores item := by
  rw [verifica_capacidade, List.all_eq_true]
  constructor
  · intro h item hex
    obtain ⟨p, hp, hitem⟩ := hex
    have hmem : item ∈ itensOf pedidos := by
      rw [itensOf, List.mem_dedup, List.mem_flatten]
      exact ⟨p.2.map Prod.fst, List.mem_map.mpr ⟨p, hp, rfl⟩, lookupKey_isSome.mp hitem⟩
    exact of_decide_eq_true (h item hmem)
  · intro h item hitem
    apply decide_eq_true
    rw [itensOf, List.mem_dedup, List.mem_flatten] at hitem
    obtain ⟨l, hl, hitem2⟩ := hitem
    obtain ⟨p, hp, rfl⟩ := List.mem_map.mp hl
    exact h item ⟨p, hp, lookupKey_isSome.mpr hitem2⟩

theorem goal_test_true_check {variaveis : List Var} {p c : ProbDict} {LB UB : Nat}
    {s : Assignment} (h : goal_test variaveis p c LB UB s = true) :
    (check_global_constraints s p c LB UB).1 = true := by
  by_cases hl : s.length = variaveis.length
  · rwa [goal_test_complete _ _ _ _ _ hl] at h
  · rw [goal_test, if_pos hl] at h
    exact absurd h (by simp)

/-- The band total of any assignment is at most the total with every order selected. -/
theorem tamanho_le_maximo (a : Assignment) (p : ProbDict) (LB UB : Nat) :
    (verifica_tamanho_wave a p LB UB).2 ≤ total_maximo p := by
  simp only [verifica_tamanho_wave, total_maximo]
  apply List.sum_le_sum
  intro i hi
  split <;> simp

/-- C6: Empty-result handling: when `LB` exceeds the maximum achievable
total of units, the enumerator yields no assignment and `main` reports the
absence of a feasible solution, constructing no result tuple. -/
theorem C6_empty_result (pedidos corredores : ProbDict) (LB UB : Nat)
    (h : total_maximo pedidos < LB) :
    (all_solutions pedidos corredores LB UB []).1 = [] ∧
    main_result pedidos corredores LB UB = none := by
  have hempty : (all_solutions pedidos corredores LB UB []).1 = [] := by
    rcases hsols : (all_solutions pedidos corredores LB UB []).1 with _ | ⟨s, rest⟩
    · rfl
    · exfalso
      have hs : s ∈ (all_solutions pedidos corredores LB UB []).1 := by
        rw [hsols]
        exact List.mem_cons_self s rest
      have hgoal := all_solutions_rec_sound (criar_variaveis pedidos corredores)
        pedidos corredores LB UB ((criar_variaveis pedidos corredores).length + 1) [] s hs
      have hcheck := goal_test_true_check hgoal
      rw [check_global_constraints_eq] at hcheck
      simp only [Bool.and_eq_true] at hcheck
      have hband := hcheck.1
      rw [tamanho_fst] at hband
      have hb := of_decide_eq_true hband
      have hle := tamanho_le_maximo s pedidos LB UB
      omega
  refine ⟨hempty, ?_⟩
  unfold main_result
  rw [hempty]

-- ---------------------------------------------------------------------
-- Reading a partial assignment through the dict.get default.

theorem dget_completar {variaveis : List Var} (a : Assignment) {v : Var}
    (hv : v ∈ variaveis) : dget (completar variaveis a) v = dget a v := by
  rw [completar, dget, lookupKey_map_self (fun u => dget a u) variaveis hv]
  rfl

theorem completar_tamanho (pedidos corredores : ProbDict) (LB UB : Nat) (a : Assignment) :
    verifica_tamanho_wave (completar (criar_variaveis pedidos corredores) a) pedidos LB UB =
      verifica_tamanho_wave a pedidos LB UB := by
  have hmap : pedidos.map (fun p =>
      if dget (completar (criar_variaveis pedidos corredores) a) (Var.o p.1) = 1 then
        sumVals p.2 else 0) =
      pedidos.map (fun p => if dget a (Var.o p.1) = 1 then sumVals p.2 else 0) := by
    apply List.map_congr_left
    intro p hp
    have hv : Var.o p.1 ∈ criar_variaveis pedidos corredores :=
      List.mem_append_left _ (List.mem_map.mpr ⟨p, hp, rfl⟩)
    rw [dget_completar a hv]
  simp only [verifica_tamanho_wave, hmap]

theorem completar_demanda (pedidos corredores : ProbDict) (a : Assignment) (item : Nat) :
    demanda (completar (criar_variaveis pedidos corredores) a) pedidos item =
      demanda a pedidos item := by
  simp only [demanda]
  apply congrArg
  apply List.map_congr_left
  intro p hp
  have hv : Var.o p.1 ∈ criar_variaveis pedidos corredores :=
    List.mem_append_left _ (List.mem_map.mpr ⟨p, hp, rfl⟩)
  rw [dget_completar a hv]

theorem completar_oferta (pedidos corredores : ProbDict) (a : Assignment) (item : Nat) :
    oferta (completar (criar_variaveis pedidos corredores) a) corredores item =
      oferta a corredores item := by
  simp only [oferta]
  apply congrArg
  apply List.map_congr_left
  intro p hp
  have hv : Var.c p.1 ∈ criar_variaveis pedidos corredores :=
    List.mem_append_right _ (List.mem_map.mpr ⟨p, hp, rfl⟩)
  rw [dget_completar a hv]

theorem completar_capacidade (pedidos corredores : ProbDict) (a : Assignment) :
    verifica_capacidade (completar (criar_variaveis pedidos corredores) a)
      pedidos corredores = verifica_capacidade a pedidos corredores := by
  simp only [verifica_capacidade]
  have hfun : (fun item => decide
      (demanda (completar (criar_variaveis pedidos corredores) a) pedidos item ≤
       oferta (completar (criar_variaveis pedidos corredores) a) corredores item)) =
      fun item => decide (demanda a pedidos item ≤ oferta a corredores item) := by
    funext item
    rw [completar_demanda, completar_oferta]
  rw [hfun]

theorem completar_corridor (pedidos corredores : ProbDict) (a : Assignment) :
    verifica_corridor_selecionado (completar (criar_variaveis pedidos corredores) a)
      corredores = verifica_corridor_selecionado a corredores := by
  have hmap : corredores.map (fun p =>
      dget (completar (criar_variaveis pedidos corredores) a) (Var.c p.1)) =
      corredores.map (fun p => dget a (Var.c p.1)) := by
    apply List.map_congr_left
    intro p hp
    have hv : Var.c p.1 ∈ criar_variaveis pedidos corredores :=
      List.mem_append_right _ (List.mem_map.mpr ⟨p, hp, rfl⟩)
    rw [dget_completar a hv]
  simp only [verifica_corridor_selecionado, hmap]

/-- C9: Totality of the feasibility interface on partial assignments: the
three predicates and the combinator are (total) functions of the values read
through `dict.get(var, 0)` — a partial assignment behaves exactly like its
completion binding every absent variable to `0` — and `goal_test` returns
`False` for every assignment whose size differs from the variable count. -/
theorem C9_partial_totality (pedidos corredores : ProbDict) (LB UB : Nat)
    (a : Assignment) :
    verifica_tamanho_wave (completar (criar_variaveis pedidos corredores) a)
        pedidos LB UB = verifica_tamanho_wave a pedidos LB UB ∧
    verifica_capacidade (completar (criar_variaveis pedidos corredores) a)
        pedidos corredores = verifica_capacidade a pedidos corredores ∧
    verifica_corridor_selecionado (completar (criar_variaveis pedidos corredores) a)
        corredores = verifica_corridor_selecionado a corredores ∧
    check_global_constraints (completar (criar_variaveis pedidos corredores) a)
        pedidos corredores LB UB = check_global_constraints a pedidos corredores LB UB ∧
    (∀ st : Assignment, st.length ≠ (criar_variaveis pedidos corredores).length →
      goal_test (criar_variaveis pedidos corredores) pedidos corredores LB UB st = false) := by
  refine ⟨completar_tamanho pedidos corredores LB UB a,
    completar_capacidade pedidos corredores a,
    completar_corridor pedidos corredores a, ?_, ?_⟩
  · rw [check_global_constraints_eq, check_global_constraints_eq,
      completar_tamanho, completar_capacidade, completar_corridor]
  · intro st hst
    rw [goal_test, if_pos hst]

-- ---------------------------------------------------------------------
-- The linear max-scan of the ranking stage.

/-- Python `max(..., key=...)` keeps the first element among those sharing
the maximal key: the result of the fold splits the list with everything strictly
smaller before it. -/
theorem foldl_max_first {α : Type} (key : α → ℚ) :
    ∀ (xs : List α) (x : α),
      ∃ l1 l2,
        x :: xs = l1 ++ (xs.foldl (fun best y => if key best < key y then y else best) x) :: l2 ∧
        (∀ y ∈ l1, key y <
          key (xs.foldl (fun best y => if key best < key y then y else best) x)) ∧
        (∀ y ∈ x :: xs, key y ≤
          key (xs.foldl (fun best y => if key best < key y then y else best) x)) := by
  intro xs
  induction xs with
  | nil =>
    intro x
    refine ⟨[], [], rfl, by simp, ?_⟩
    intro y hy
    simp only [List.mem_singleton] at hy
    simp [hy]
  | cons y ys ih =>
    intro x
    by_cases hxy : key x < key y
    · obtain ⟨l1, l2, heq, hlt, hle⟩ := ih y
      rw [List.foldl_cons, if_pos hxy]
      refine ⟨x :: l1, l2, by rw [List.cons_append, heq], ?_, ?_⟩
      · intro z hz
        rcases List.mem_cons.mp hz with hz | hz
        · subst hz
          exact lt_of_lt_of_le hxy (hle y (List.mem_cons_self y ys))
        · exact hlt z hz
      · intro z hz
        rcases List.mem_cons.mp hz with hz | hz
        · subst hz
          exact le_of_lt (lt_of_lt_of_le hxy (hle y (List.mem_cons_self y ys)))
        · exact hle z hz
    · obtain ⟨l1, l2, heq, hlt, hle⟩ := ih x
      rw [List.foldl_cons, if_neg hxy]
      rcases l1 with _ | ⟨u, l1t⟩
      · simp only [List.nil_append] at heq
        have hm : ys.foldl (fun best y => if key best < key y then y else best) x = x := by
          injection heq with h1 h2
          exact h1.symm
        have hl2 : l2 = ys := by
          injection heq with h1 h2
          exact h2.symm
        refine ⟨[], y :: l2, ?_, by simp, ?_⟩
        · rw [List.nil_append, hm, hl2]
        · intro z hz
          rw [hm]
          rcases List.mem_cons.mp hz with rfl | hz2
          · exact le_refl _
          · rcases List.mem_cons.mp hz2 with rfl | hz3
            · exact le_of_not_lt hxy
            · have hz4 := hle z (List.mem_cons_of_mem x hz3)
              rwa [hm] at hz4
      · have hu1 : u = x := by
          rw [List.cons_append] at heq
          injection heq with h1 h2
          exact h1.symm
        have hu2 : ys = l1t ++
            (ys.foldl (fun best y => if key best < key y then y else best) x) :: l2 := by
          rw [List.cons_append] at heq
          injection heq with h1 h2
        have hx_lt : key x <
            key (ys.foldl (fun best y => if key best < key y then y else best) x) := by
          have h5 := hlt u (List.mem_cons_self u l1t)
          rwa [hu1] at h5
        refine ⟨x :: y :: l1t, l2, ?_, ?_, ?_⟩
        · rw [List.cons_append, List.cons_append]
          exact congrArg (fun t => x :: y :: t) hu2
        · intro z hz
          rcases List.mem_cons.mp hz with rfl | hz2
          · exact hx_lt
          · rcases List.mem_cons.mp hz2 with rfl | hz3
            · exact lt_of_le_of_lt (le_of_not_lt hxy) hx_lt
            · exact hlt z (List.mem_cons_of_mem u hz3)
        · intro z hz
          rcases List.mem_cons.mp hz with rfl | hz2
          · exact le_of_lt hx_lt
          · rcases List.mem_cons.mp hz2 with rfl | hz3
            · exact le_of_lt (lt_of_le_of_lt (le_of_not_lt hxy) hx_lt)
            · exact hle z (List.mem_cons_of_mem x hz3)

/-- C8: Tie-breaking in the ranking: the best tuple is one with maximal
objective, and everything before it in enumeration order is strictly smaller —
the first maximum encountered by the linear max-scan wins. -/
theorem C8_ranking_first_max (resultados : List (Assignment × Nat × Nat × ℚ))
    (hne : resultados ≠ []) :
    ∃ best l1 l2,
      max_by_key (fun r => r.2.2.2) resultados = some best ∧
      resultados = l1 ++ best :: l2 ∧
      (∀ r ∈ resultados, r.2.2.2 ≤ best.2.2.2) ∧
      (∀ r ∈ l1, r.2.2.2 < best.2.2.2) := by
  rcases resultados with _ | ⟨x, xs⟩
  · exact absurd rfl hne
  · obtain ⟨l1, l2, heq, hlt, hle⟩ := foldl_max_first (fun r => r.2.2.2) xs x
    exact ⟨_, l1, l2, rfl, heq, hle, hlt⟩

-- ---------------------------------------------------------------------
-- Rational facts about the objective, reduced to integer arithmetic.

theorem calcular_eq_iff (t n k : Nat) (h : 0 < n) :
    calcular_valor_objetivo t n = (k : ℚ) ↔ t = k * n := by
  rw [calcular_valor_objetivo, if_pos h,
    div_eq_iff (by exact_mod_cast Nat.pos_iff_ne_zero.mp h : (n : ℚ) ≠ 0)]
  constructor <;> intro he <;> exact_mod_cast he

theorem calcular_le_iff (t n k : Nat) (h : 0 < n) :
    calcular_valor_objetivo t n ≤ (k : ℚ) ↔ t ≤ k * n := by
  rw [calcular_valor_objetivo, if_pos h,
    div_le_iff₀ (by exact_mod_cast h : (0 : ℚ) < n)]
  constructor <;> intro he <;> exact_mod_cast he

/-- C7: end-to-end scenario on the fixed dataset with `LB = 5`, `UB = 12`:
the enumerator yields at least one feasible assignment, some yielded
assignment has its total of units within `[5, 12]`, and the maximum objective
over all yielded assignments is exactly `5` units per corridor (attained, and
never exceeded). -/
theorem C7_end_to_end :
    (all_solutions pedidosData corredoresData 5 12 []).1 ≠ [] ∧
    (∃ s ∈ (all_solutions pedidosData corredoresData 5 12 []).1,
      5 ≤ (verifica_tamanho_wave s pedidosData 5 12).2 ∧
      (verifica_tamanho_wave s pedidosData 5 12).2 ≤ 12) ∧
    (∃ s ∈ (all_solutions pedidosData corredoresData 5 12 []).1,
      calcular_valor_objetivo (verifica_tamanho_wave s pedidosData 5 12).2
        (verifica_corridor_selecionado s corredoresData).2 = 5) ∧
    (∀ s ∈ (all_solutions pedidosData corredoresData 5 12 []).1,
      calcular_valor_objetivo (verifica_tamanho_wave s pedidosData 5 12).2
        (verifica_corridor_selecionado s corredoresData).2 ≤ 5) := by
  have hnd : (criar_variaveis pedidosData corredoresData).Nodup := by decide
  have hsols := all_solutions_empty_spec pedidosData corredoresData 5 12 hnd
  rw [hsols]
  refine ⟨by decide, by decide, ?_, ?_⟩
  · obtain ⟨s, hs, h1, h2⟩ :=
      (show ∃ s ∈ (naive_enum (criar_variaveis pedidosData corredoresData)).filter
          (goal_test (criar_variaveis pedidosData corredoresData)
            pedidosData corredoresData 5 12),
        0 < (verifica_corridor_selecionado s corredoresData).2 ∧
        (verifica_tamanho_wave s pedidosData 5 12).2 =
          5 * (verifica_corridor_selecionado s corredoresData).2 by decide)
    refine ⟨s, hs, ?_⟩
    have h3 := (calcular_eq_iff _ _ 5 h1).mpr h2
    simpa using h3
  · intro s hs
    have h := (show ∀ s ∈ (naive_enum (criar_variaveis pedidosData corredoresData)).filter
          (goal_test (criar_variaveis pedidosData corredoresData)
            pedidosData corredoresData 5 12),
        0 < (verifica_corridor_selecionado s corredoresData).2 ∧
        (verifica_tamanho_wave s pedidosData 5 12).2 ≤
          5 * (verifica_corridor_selecionado s corredoresData).2 by decide) s hs
    have h3 := (calcular_le_iff _ _ 5 h.1).mpr h.2
    simpa using h3

-- ---------------------------------------------------------------------
-- Concrete witnesses instantiating the theorems above.

/-- Witness for C1: a concrete one-order, one-corridor instance with its
single yielded assignment. -/
theorem C1_enumerator_sound_witness :
    (criar_variaveis [(0, [(0, 2)])] [(0, [(0, 2)])]).Nodup ∧
    [(Var.o 0, 1), (Var.c 0, 1)] ∈
      (all_solutions [(0, [(0, 2)])] [(0, [(0, 2)])] 1 5 []).1 ∧
    0 < (check_global_constraints [(Var.o 0, 1), (Var.c 0, 1)]
      [(0, [(0, 2)])] [(0, [(0, 2)])] 1 5).2.2 := by
  refine ⟨by decide, by decide, ?_⟩
  exact (C1_enumerator_sound [(0, [(0, 2)])] [(0, [(0, 2)])] 1 5 (by decide)
    [(Var.o 0, 1), (Var.c 0, 1)] (by decide)).2.2.2.2

/-- Witness for C2: a concrete two-order, two-corridor instance. -/
theorem C2_enumerator_complete_witness :
    (criar_variaveis [(0, [(0, 1)]), (1, [(1, 1)])] [(0, [(0, 1)]), (1, [(1, 1)])]).Nodup ∧
    ((all_solutions [(0, [(0, 1)]), (1, [(1, 1)])] [(0, [(0, 1)]), (1, [(1, 1)])] 1 2 []).1 =
      (naive_enum (criar_variaveis [(0, [(0, 1)]), (1, [(1, 1)])]
          [(0, [(0, 1)]), (1, [(1, 1)])])).filter (fun s =>
        (verifica_tamanho_wave s [(0, [(0, 1)]), (1, [(1, 1)])] 1 2).1 &&
        (verifica_capacidade s [(0, [(0, 1)]), (1, [(1, 1)])]
            [(0, [(0, 1)]), (1, [(1, 1)])] &&
         (verifica_corridor_selecionado s [(0, [(0, 1)]), (1, [(1, 1)])]).1))) ∧
    nconflicts dummy_constraint [] (Var.o 0) 0 [] = 0 := by
  refine ⟨by decide, ?_, ?_⟩
  · exact (C2_enumerator_complete [(0, [(0, 1)]), (1, [(1, 1)])]
      [(0, [(0, 1)]), (1, [(1, 1)])] 1 2 (by decide)).1
  · exact (C2_enumerator_complete [(0, [(0, 1)]), (1, [(1, 1)])]
      [(0, [(0, 1)]), (1, [(1, 1)])] 1 2 (by decide)).2 [] (Var.o 0) 0 []

/-- Witness for C3: a concrete satisfiable instance, extracting the per-item
bound for item `0` from the iff. -/
theorem C3_capacidade_iff_witness :
    verifica_capacidade [(Var.o 0, 1), (Var.c 0, 1)] [(0, [(0, 1)])] [(0, [(0, 2)])] = true ∧
    demanda [(Var.o 0, 1), (Var.c 0, 1)] [(0, [(0, 1)])] 0 ≤
      oferta [(Var.o 0, 1), (Var.c 0, 1)] [(0, [(0, 2)])] 0 := by
  refine ⟨by decide, ?_⟩
  exact (C3_capacidade_iff [(Var.o 0, 1), (Var.c 0, 1)] [(0, [(0, 1)])]
    [(0, [(0, 2)])]).mp (by decide) 0 (by decide)

/-- Witness for C4: a concrete empty assignment whose band check fails. -/
theorem C4_check_failure_shape_witness :
    (verifica_tamanho_wave [] [(0, [(0, 3)])] 1 2).1 = false ∧
    check_global_constraints [] [(0, [(0, 3)])] [] 1 2 =
      (false, (verifica_tamanho_wave [] [(0, [(0, 3)])] 1 2).2, 0) := by
  refine ⟨by decide, ?_⟩
  exact (C4_check_failure_shape [] [(0, [(0, 3)])] [] 1 2).1 (by decide)

/-- Witness for C6: a concrete instance whose lower bound exceeds the maximum
achievable total. -/
theorem C6_empty_result_witness :
    total_maximo [(0, [(0, 1)])] < 10 ∧
    (all_solutions [(0, [(0, 1)])] [(0, [(0, 1)])] 10 20 []).1 = [] ∧
    main_result [(0, [(0, 1)])] [(0, [(0, 1)])] 10 20 = none := by
  refine ⟨by decide, ?_, ?_⟩
  · exact (C6_empty_result [(0, [(0, 1)])] [(0, [(0, 1)])] 10 20 (by decide)).1
  · exact (C6_empty_result [(0, [(0, 1)])] [(0, [(0, 1)])] 10 20 (by decide)).2

/-- Witness for C8: a concrete two-element list sharing the maximal objective. -/
theorem C8_ranking_first_max_witness :
    ([([], 5, 1, (5 : ℚ)), ([], 10, 2, (5 : ℚ))] :
        List (Assignment × Nat × Nat × ℚ)) ≠ [] ∧
    ∃ best l1 l2,
      max_by_key (fun r => r.2.2.2)
        ([([], 5, 1, (5 : ℚ)), ([], 10, 2, (5 : ℚ))] :
          List (Assignment × Nat × Nat × ℚ)) = some best ∧
      ([([], 5, 1, (5 : ℚ)), ([], 10, 2, (5 : ℚ))] :
          List (Assignment × Nat × Nat × ℚ)) = l1 ++ best :: l2 ∧
      (∀ r ∈ ([([], 5, 1, (5 : ℚ)), ([], 10, 2, (5 : ℚ))] :
          List (Assignment × Nat × Nat × ℚ)), r.2.2.2 ≤ best.2.2.2) ∧
      (∀ r ∈ l1, r.2.2.2 < best.2.2.2) := by
  constructor
  · simp
  · exact C8_ranking_first_max [([], 5, 1, (5 : ℚ)), ([], 10, 2, (5 : ℚ))] (by simp)

/-- Witness for C9: a concrete partial assignment and a too-short state. -/
theorem C9_partial_totality_witness :
    verifica_capacidade (completar (criar_variaveis [(0, [(0, 1)])] [(0, [(0, 1)])])
        [(Var.o 0, 1)]) [(0, [(0, 1)])] [(0, [(0, 1)])] =
      verifica_capacidade [(Var.o 0, 1)] [(0, [(0, 1)])] [(0, [(0, 1)])] ∧
    ([] : Assignment).length ≠ (criar_variaveis [(0, [(0, 1)])] [(0, [(0, 1)])]).length ∧
    goal_test (criar_variaveis [(0, [(0, 1)])] [(0, [(0, 1)])])
      [(0, [(0, 1)])] [(0, [(0, 1)])] 0 1 [] = false := by
  refine ⟨(C9_partial_totality [(0, [(0, 1)])] [(0, [(0, 1)])] 0 1 [(Var.o 0, 1)]).2.1,
    by decide, ?_⟩
  exact (C9_partial_totality [(0, [(0, 1)])] [(0, [(0, 1)])] 0 1
    [(Var.o 0, 1)]).2.2.2.2 [] (by decide)

end SelecaoPedidos
